import Mathlib

/-!
Verification development for the questables GeoJSON world-import pipeline
(`src/working/import_geojson.py`).  The Python code is shallowly embedded:
JSON-decoded values become the inductive `JVal`, Python strings become lists
of Unicode code points (which, unlike Lean's `String`, may contain lone
surrogates as produced by `json.load`), database tables become Lean lists,
and every fallible Python coercion (`int(...)`, `float(...)`) becomes an
`Option`/`Except` returning function.
-/

set_option maxHeartbeats 1000000

/-- PyStr models a Python `str`: a sequence of Unicode code points.  JSON
decoding can produce lone surrogates (U+D800 .. U+DFFF), which Lean's `Char`
cannot carry, hence code points are plain naturals. -/
abbrev PyStr := List Nat

/-- Code points of a Lean string literal (all valid scalar values). -/
def strCodes (s : String) : PyStr := s.data.map Char.toNat

/-- JVal models a JSON-decoded Python value: `None`, `bool`, numbers
(ints and floats are conflated into `ℚ`), `str`, `list`, `dict`. -/
inductive JVal where
  | null
  | bool (b : Bool)
  | num (q : ℚ)
  | str (s : PyStr)
  | arr (xs : List JVal)
  | obj (fields : List (String × JVal))

/-- Bag models a JSON object / Python dict as an association list (the first
binding of a key wins, as in a dict where keys are unique). -/
abbrev Bag := List (String × JVal)

/-- dictGet models Python `d.get(key)` distinguishing an absent key (`none`)
from a present binding (`some v`, even when `v` is JSON null). -/
def dictGet : Bag → String → Option JVal
  | [], _ => none
  | (k, v) :: rest, key => if k == key then some v else dictGet rest key

/-- pGet models Python `d.get(key)` collapsed to a value: absent keys give
`None` (JSON null), exactly as `dict.get` returns `None` by default. -/
def pGet (p : Bag) (k : String) : JVal := (dictGet p k).getD JVal.null

/-- pGetD models Python `d.get(key, default)`: the default applies only when
the key is absent; a present `None` binding is returned as `None`. -/
def pGetD (p : Bag) (k : String) (d : JVal) : JVal := (dictGet p k).getD d

/-- isFalsy models Python truthiness: `None`, `False`, `0`, empty string,
empty list and empty dict are falsy; everything else is truthy. -/
def isFalsy : JVal → Bool
  | JVal.null => true
  | JVal.bool b => !b
  | JVal.num q => q == 0
  | JVal.str s => s.isEmpty
  | JVal.arr xs => xs.isEmpty
  | JVal.obj fs => fs.isEmpty

/-- pyBool models Python `bool(x)`, which is total. -/
def pyBool (v : JVal) : Bool := !(isFalsy v)

/-- isDigitCode tests for an ASCII digit code point. -/
def isDigitCode (c : Nat) : Bool := 48 ≤ c && c ≤ 57

/-- takeDigits splits a code-point list into its leading digit run and the
rest. -/
def takeDigits : List Nat → List Nat × List Nat
  | [] => ([], [])
  | c :: cs =>
    if isDigitCode c then
      let (ds, rest) := takeDigits cs
      (c :: ds, rest)
    else ([], c :: cs)

/-- digitsVal reads a digit run as a natural number. -/
def digitsVal (ds : List Nat) : Nat := ds.foldl (fun acc c => acc * 10 + (c - 48)) 0

/-- parseSign consumes an optional leading `+`/`-`; returns whether the
number is negated and the remaining input. -/
def parseSign : List Nat → Bool × List Nat
  | 43 :: cs => (false, cs)
  | 45 :: cs => (true, cs)
  | cs => (false, cs)

/-- parseUnsignedDec parses `digits`, `digits.digits`, `digits.` or
`.digits` into an exact rational, returning the remaining input. -/
def parseUnsignedDec (s : List Nat) : Option (ℚ × List Nat) :=
  let (ip, rest) := takeDigits s
  match rest with
  | 46 :: rest2 =>
    let (fp, rest3) := takeDigits rest2
    if ip.isEmpty && fp.isEmpty then none
    else some (((digitsVal ip : ℚ) + (digitsVal fp : ℚ) / ((10 : ℚ) ^ fp.length), rest3))
  | _ => if ip.isEmpty then none else some (((digitsVal ip : ℚ), rest))

/-- parseExp parses the signed integer after an `e`/`E` marker. -/
def parseExp (s : List Nat) : Option (Int × List Nat) :=
  let (neg, s1) := parseSign s
  let (ds, rest) := takeDigits s1
  if ds.isEmpty then none
  else some (((if neg then -(digitsVal ds : Int) else (digitsVal ds : Int)), rest))

/-- floatOfPyStr models Python `float(str)` on decimal literals with an
optional sign, fraction and exponent.  (The `inf`/`nan` spellings, embedded
underscores and surrounding whitespace accepted by CPython are outside the
model; no claim depends on them.) -/
def floatOfPyStr (s : List Nat) : Option ℚ :=
  let (neg, s1) := parseSign s
  match parseUnsignedDec s1 with
  | none => none
  | some (m, rest) =>
    match rest with
    | [] => some (if neg then -m else m)
    | 101 :: rest2 =>
      match parseExp rest2 with
      | some (e, []) => some ((if neg then -m else m) * (10 : ℚ) ^ e)
      | _ => none
    | 69 :: rest2 =>
      match parseExp rest2 with
      | some (e, []) => some ((if neg then -m else m) * (10 : ℚ) ^ e)
      | _ => none
    | _ => none

/-- intOfPyStr models Python `int(str)`: an optional sign followed by
digits only. -/
def intOfPyStr (s : List Nat) : Option Int :=
  let (neg, s1) := parseSign s
  let (ds, rest) := takeDigits s1
  if ds.isEmpty || !rest.isEmpty then none
  else some (if neg then -(digitsVal ds : Int) else (digitsVal ds : Int))

/-- ratTrunc truncates a rational toward zero, as Python `int(float)` does. -/
def ratTrunc (q : ℚ) : Int := Int.tdiv q.num (q.den : Int)

/-- pyInt models Python `int(x)` on a JSON-decoded value: numbers truncate
toward zero, booleans become 0/1, integer-literal strings parse; `None`,
lists and dicts raise (`none`). -/
def pyInt : JVal → Option Int
  | JVal.num q => some (ratTrunc q)
  | JVal.bool b => some (if b then 1 else 0)
  | JVal.str s => intOfPyStr s
  | _ => none

/-- pyFloat models Python `float(x)` on a JSON-decoded value: numbers pass
through, booleans become 0/1, numeric-literal strings parse; `None`, lists
and dicts raise (`none`). -/
def pyFloat : JVal → Option ℚ
  | JVal.num q => some q
  | JVal.bool b => some (if b then 1 else 0)
  | JVal.str s => floatOfPyStr s
  | _ => none

/-- pyRepr models Python `repr` on JSON-decoded values, enough to give
`str(x)` for container values (inner strings are quoted; the escaping CPython
applies to non-printable characters is not modelled — no claim depends on
the exact container rendering). -/
def pyRepr : JVal → PyStr
  | JVal.null => strCodes ("None")
  | JVal.bool true => strCodes ("True")
  | JVal.bool false => strCodes ("False")
  | JVal.num q => strCodes (toString q)
  | JVal.str s => 39 :: (s ++ [39])
  | JVal.arr xs => 91 :: (pyReprList xs ++ [93])
  | JVal.obj fs => 123 :: (pyReprFields fs ++ [125])
where
  /-- pyReprList renders list elements separated by a comma and space. -/
  pyReprList : List JVal → PyStr
    | [] => []
    | [x] => pyRepr x
    | x :: y :: xs => pyRepr x ++ ([44, 32] ++ pyReprList (y :: xs))
  /-- pyReprFields renders dict entries as quoted key, colon, value. -/
  pyReprFields : List (String × JVal) → PyStr
    | [] => []
    | [(k, v)] => (39 :: (strCodes k ++ [39, 58, 32])) ++ pyRepr v
    | (k, v) :: f :: fs =>
      ((39 :: (strCodes k ++ [39, 58, 32])) ++ pyRepr v) ++ ([44, 32] ++ pyReprFields (f :: fs))

/-- pyStr models Python `str(x)` on JSON-decoded values: a string is itself,
anything else renders via `repr`. -/
def pyStr : JVal → PyStr
  | JVal.str s => s
  | v => pyRepr v

/-- isSurrogate recognises the UTF-16 surrogate code-point range, which
`encode('utf-8', 'ignore')` drops. -/
def isSurrogate (c : Nat) : Bool := 55296 ≤ c && c ≤ 57343

/-- removeSurrogates models `text.encode('utf-8', 'ignore').decode('utf-8')`:
every code point survives except lone surrogates, which UTF-8 cannot encode
and `'ignore'` silently removes. -/
def removeSurrogates (s : PyStr) : PyStr := s.filter (fun c => !isSurrogate c)

/-- safe_str embeds `_safe_str` (src/working/import_geojson.py lines
252-263): `None` maps to `None`; any other JSON-decoded value is rendered
with `str(...)` and stripped of surrogate code points.  On JSON-decoded
input neither `str` nor the encode round-trip can raise, so the `except`
branch is unreachable and the function is total. -/
def safe_str : JVal → Option PyStr
  | JVal.null => none
  | v => some (removeSurrogates (pyStr v))

/-- BoundsRec is the bounds dictionary built by `_build_map_metadata`
(src/working/import_geojson.py lines 200-214). -/
structure BoundsRec where
  north : ℚ
  south : ℚ
  east : ℚ
  west : ℚ
  width_pixels : Nat
  height_pixels : Nat
  meters_per_pixel : ℚ

/-- computeBounds embeds the bounds computation of `_build_map_metadata`
(lines 200-214): canonical map coordinates put (0,0) at the top-left
corner, so east = width x scale and south = -height x scale. -/
def computeBounds (width_pixels height_pixels : Nat) (meters_per_pixel : ℚ) : BoundsRec :=
  { north := 0
    south := -((height_pixels : ℚ) * meters_per_pixel)
    east := (width_pixels : ℚ) * meters_per_pixel
    west := 0
    width_pixels := width_pixels
    height_pixels := height_pixels
    meters_per_pixel := meters_per_pixel }

/-- carriedScale embeds the per-file metadata chain of `_extract_scale_info`
(lines 173-176): `metadata = data.get('metadata') or {}` (falsy values are
replaced by an empty dict), then `metadata.get('scale')` if `metadata` is a
dict, then `scale.get('meters_per_pixel')` if `scale` is a dict; a value of
JSON null is indistinguishable from an absent key (`is not None` test). -/
def carriedScale (fields : Bag) : Option JVal :=
  let metadata := if isFalsy (pGet fields ("metadata")) then JVal.obj [] else pGet fields ("metadata")
  let scale : Option JVal :=
    match metadata with
    | JVal.obj mfs => dictGet mfs ("scale")
    | _ => none
  match scale with
  | some (JVal.obj sfs) =>
    match dictGet sfs ("meters_per_pixel") with
    | some JVal.null => none
    | some v => some v
    | none => none
  | _ => none

/-- extract_scale_info embeds `_extract_scale_info` (lines 165-185): scan
the files in discovery order (a `none` entry is a file whose read raised and
was skipped by the `except: continue`); for each readable file holding a
`meters_per_pixel` value, try `float(...)`; on success return it, on
`TypeError`/`ValueError` log a warning and continue with the next file. -/
def extract_scale_info : List (Option Bag) → Option ℚ
  | [] => none
  | file :: rest =>
    match file with
    | none => extract_scale_info rest
    | some fields =>
      match carriedScale fields with
      | none => extract_scale_info rest
      | some v =>
        match pyFloat v with
        | some q => some q
        | none => extract_scale_info rest

/-- preferredNames is the ordered candidate list of `_find_world_svg`
(lines 147-151). -/
def preferredNames (world : String) : List String :=
  [world ++ ("_states.svg"), world ++ ("_map.svg"), world ++ (".svg")]

/-- find_world_svg embeds `_find_world_svg` (lines 142-162).  `dirs` is the
candidate directory set (each input file's directory and its parent) in its
Python set-iteration order, which is arbitrary; `ex d n` models
`(d / n).exists()`.  The directory loop is outermost: within one directory
the candidates are tried in preference order, and the first hit anywhere
wins.  `none` models the `FileNotFoundError` (MissingDrawing). -/
def find_world_svg (world : String) (dirs : List String) (ex : String → String → Bool) :
    Option (String × String) :=
  match dirs with
  | [] => none
  | d :: rest =>
    match (preferredNames world).find? (fun n => ex d n) with
    | some n => some (d, n)
    | none => find_world_svg world rest ex

/-- MetaError is the metadata-reconciliation failure taxonomy of the spec:
MissingScale, MissingDrawing, UnresolvableDimensions, MetadataPersistFailure. -/
inductive MetaError where
  | missingScale
  | missingDrawing
  | unresolvableDimensions
  | persistFailure
  deriving DecidableEq

/-- MapMetadata is the canonical metadata record produced by
`_build_map_metadata` (world name, generation timestamp and source path are
provenance only and are omitted). -/
structure MapMetadata where
  width_pixels : Nat
  height_pixels : Nat
  meters_per_pixel : ℚ
  bounds : BoundsRec

/-- scaleOrMissing embeds the `MissingScale` guard of `_build_map_metadata`
(lines 190-195): a `None` scale raises. -/
def scaleOrMissing (files : List (Option Bag)) : Except MetaError ℚ :=
  match extract_scale_info files with
  | none => Except.error MetaError.missingScale
  | some q => Except.ok q

/-- build_map_metadata embeds `_build_map_metadata` (lines 188-227):
resolve the scale (MissingScale), locate the drawing (`find_world_svg`,
MissingDrawing), obtain its dimensions (`svgDims` abstracts the
attribute/viewBox/inkscape fallback chain of `_extract_svg_dimensions`;
`none` is UnresolvableDimensions), then compute the bounds. -/
def build_map_metadata (world : String) (files : List (Option Bag)) (dirs : List String)
    (ex : String → String → Bool) (svgDims : String × String → Option (Nat × Nat)) :
    Except MetaError MapMetadata :=
  match extract_scale_info files with
  | none => Except.error MetaError.missingScale
  | some mpp =>
    match find_world_svg world dirs ex with
    | none => Except.error MetaError.missingDrawing
    | some svg =>
      match svgDims svg with
      | none => Except.error MetaError.unresolvableDimensions
      | some (w, h) => Except.ok ⟨w, h, mpp, computeBounds w h mpp⟩

/-- WorldRow is one row of `public.maps_world` as touched by
`create_world_entry` (id, name, description, bounds, dimensions, scale,
is_active, updated_at; other timestamps are database defaults the importer
never writes). -/
structure WorldRow where
  id : String
  name : String
  description : String
  bounds : BoundsRec
  width_pixels : Nat
  height_pixels : Nat
  meters_per_pixel : ℚ
  is_active : Bool
  updated_at : Nat

/-- updateWorldRow is the `UPDATE public.maps_world SET ...` of
`create_world_entry` (lines 288-306): description, bounds, dimensions,
scale and `updated_at = NOW()` are overwritten; id, name and is_active are
untouched. -/
def updateWorldRow (name : String) (meta : MapMetadata) (now : Nat) (r : WorldRow) : WorldRow :=
  { r with
    description := ("Imported world map: ") ++ name
    bounds := meta.bounds
    width_pixels := meta.width_pixels
    height_pixels := meta.height_pixels
    meters_per_pixel := meta.meters_per_pixel
    updated_at := now }

/-- newWorldRow is the `INSERT INTO public.maps_world ...` row of
`create_world_entry` (lines 309-335): a fresh uuid, the given name, the
derived description, the metadata fields, and is_active = true. -/
def newWorldRow (name : String) (meta : MapMetadata) (freshId : String) (now : Nat) : WorldRow :=
  { id := freshId
    name := name
    description := ("Imported world map: ") ++ name
    bounds := meta.bounds
    width_pixels := meta.width_pixels
    height_pixels := meta.height_pixels
    meters_per_pixel := meta.meters_per_pixel
    is_active := true
    updated_at := now }

/-- create_world_entry embeds `create_world_entry` (lines 266-337): look the
world up by name (`fetchrow` returns the first matching row); if found,
update that row in place (`UPDATE ... WHERE id = $1`) and return its id;
otherwise insert a fresh row with a new uuid (`freshId`), is_active = true,
and return the fresh id.  `now` models `NOW()`. -/
def create_world_entry (name : String) (meta : MapMetadata) (freshId : String) (now : Nat)
    (worlds : List WorldRow) : String × List WorldRow :=
  match worlds.find? (fun r => r.name == name) with
  | some r =>
    (r.id, worlds.map (fun s => if s.id == r.id then updateWorldRow name meta now s else s))
  | none =>
    (freshId, worlds ++ [newWorldRow name meta freshId now])

/-- worldCount counts the rows of the worlds table bearing a given name. -/
def worldCount (worlds : List WorldRow) (name : String) : Nat :=
  (worlds.filter (fun r => r.name == name)).length

/-- IngestError is the per-feature failure taxonomy: `missingLocalId` is the
`TypeError`/`ValueError` raised by `int(p.get("id"))` when the feature has
no numeric local id (the spec's MissingLocalId); `badField` is the raise
from coercing some other present-but-invalid property; `typeError` is the
`AttributeError` raised when a feature or its property bag is not a dict,
or when the features value is not a list. -/
inductive IngestError where
  | missingLocalId
  | badField (k : String)
  | typeError
  deriving DecidableEq

/-- localIdField embeds `int(p.get("id"))`: an absent key gives `None` and
`int(None)` raises. -/
def localIdField (p : Bag) : Except IngestError Int :=
  match pyInt (pGet p ("id")) with
  | some i => Except.ok i
  | none => Except.error IngestError.missingLocalId

/-- intField embeds the `int(p.get(k, 0))` pattern. -/
def intField (p : Bag) (k : String) : Except IngestError Int :=
  match pyInt (pGetD p k (JVal.num 0)) with
  | some i => Except.ok i
  | none => Except.error (IngestError.badField k)

/-- floatField embeds the `float(p.get(k, 0.0))` pattern. -/
def floatField (p : Bag) (k : String) : Except IngestError ℚ :=
  match pyFloat (pGetD p k (JVal.num 0)) with
  | some q => Except.ok q
  | none => Except.error (IngestError.badField k)

/-- boolField embeds the `bool(p.get(k, False))` pattern, which is total. -/
def boolField (p : Bag) (k : String) : Bool := pyBool (pGetD p k (JVal.bool false))

/-- strField embeds the `_safe_str(p.get(k))` pattern: absent keys give
`None`, which `_safe_str` passes through. -/
def strField (p : Bag) (k : String) : Option PyStr := safe_str (pGet p k)

/-- optFloatField embeds the
`float(p.get(k, 0.0)) if p.get(k) is not None else None` pattern used for
river discharge/length/width and marker x_px/y_px: an absent (or null)
property yields SQL NULL, not 0. -/
def optFloatField (p : Bag) (k : String) : Except IngestError (Option ℚ) :=
  match pGet p k with
  | JVal.null => Except.ok none
  | v =>
    match pyFloat v with
    | some q => Except.ok (some q)
    | none => Except.error (IngestError.badField k)

/-- emblemField embeds
`json.dumps(p.get("emblem")) if p.get("emblem") is not None else None`
(the serialized payload is kept as the JSON value itself). -/
def emblemField (p : Bag) : Option JVal :=
  match pGet p ("emblem") with
  | JVal.null => none
  | v => some v

/-- FeatRow is one feature row of a per-kind table: an opaque row id
(`uuid.uuid4()`, modelled by a counter), the owning world id, the local
feature id from the source file, the kind-specific typed columns and the
geometry payload. -/
structure FeatRow (α : Type) where
  rowId : Nat
  worldId : String
  localId : Int
  payload : α
  geom : JVal

/-- keyMatch is the upsert conflict target `(world_id, <kind>_id)`. -/
def keyMatch (w : String) (lid : Int) (r : FeatRow α) : Bool :=
  r.worldId == w && r.localId == lid

/-- filterKey lists the rows holding a given (world id, local id) key. -/
def filterKey (tbl : List (FeatRow α)) (w : String) (lid : Int) : List (FeatRow α) :=
  tbl.filter (keyMatch w lid)

/-- featCount counts the rows holding a given (world id, local id) key. -/
def featCount (tbl : List (FeatRow α)) (w : String) (lid : Int) : Nat :=
  (filterKey tbl w lid).length

/-- featKeysUnique states the `(world_id, <kind>_id)` uniqueness constraint
backing `ON CONFLICT`. -/
def featKeysUnique (tbl : List (FeatRow α)) : Prop :=
  tbl.Pairwise (fun r s => ¬(r.worldId = s.worldId ∧ r.localId = s.localId))

/-- upsertFeat embeds the working importer's
(src/working/import_geojson.py) `INSERT ... ON CONFLICT (world_id,
<kind>_id) DO UPDATE SET <all non-key data columns> = EXCLUDED...`: if a
row with the key exists, its data columns (payload and geometry) are
overwritten in place and its row id survives (the freshly generated uuid is
discarded); otherwise a new row is appended with the fresh id.  The variant
importer src/afmg_geojson_importer.py conflicts on `(id)` alone with no
world column; it is embedded separately as `upsertAfmg`. -/
def upsertFeat (tbl : List (FeatRow α)) (w : String) (lid : Int) (fresh : Nat)
    (pl : α) (g : JVal) : List (FeatRow α) :=
  match tbl with
  | [] => [⟨fresh, w, lid, pl, g⟩]
  | r :: rest =>
    if keyMatch w lid r then ({ r with payload := pl, geom := g }) :: rest
    else r :: upsertFeat rest w lid fresh pl g

/-- ingestFeatures embeds the per-file feature loop shared by all five
ingestors.  CRUCIAL transaction modelling: `DatabaseManager.transaction`
(lines 43-45) returns `pool.acquire()`, which only checks a connection out
of the asyncpg pool and does NOT open a transaction, so every
`conn.execute` autocommits individually.  Hence when a later feature's
coercion raises, the rows already executed stay committed: the fold returns
the table as already modified together with the error. -/
def ingestFeatures (coerce : JVal → Except IngestError (Int × α × JVal)) (w : String) :
    List JVal → List (FeatRow α) → Nat → Nat → List (FeatRow α) × Nat × Except IngestError Nat
  | [], tbl, fresh, rows => (tbl, fresh, Except.ok rows)
  | f :: fs, tbl, fresh, rows =>
    match coerce f with
    | Except.error e => (tbl, fresh, Except.error e)
    | Except.ok (lid, pl, g) =>
      ingestFeatures coerce w fs (upsertFeat tbl w lid fresh pl g) (fresh + 1) (rows + 1)

/-- featuresOf embeds `data.get("features", [])` followed by iteration: an
absent key yields no features, a list yields its elements; a value of any
other shape is modelled as a type error (Python would fail on the first
element of such a degenerate, out-of-contract document). -/
def featuresOf (doc : Bag) : Except IngestError (List JVal) :=
  match pGetD doc ("features") (JVal.arr []) with
  | JVal.arr fs => Except.ok fs
  | _ => Except.error IngestError.typeError

/-- getProps embeds `p = f.get("properties", {})`: an absent bag is an empty
dict; a present non-dict bag (including null) makes the later `p.get(...)`
raise `AttributeError`. -/
def getProps (f : JVal) : Except IngestError Bag :=
  match f with
  | JVal.obj fs =>
    match pGetD fs ("properties") (JVal.obj []) with
    | JVal.obj p => Except.ok p
    | _ => Except.error IngestError.typeError
  | _ => Except.error IngestError.typeError

/-- getGeom embeds `g = f.get("geometry")` (then `json.dumps(g)` passes the
payload through opaquely). -/
def getGeom (f : JVal) : Except IngestError JVal :=
  match f with
  | JVal.obj fs => Except.ok (pGet fs ("geometry"))
  | _ => Except.error IngestError.typeError

/-- CellFields holds the non-key typed columns of `maps_cells`. -/
structure CellFields where
  biome : Int
  type : Option PyStr
  population : Int
  state : Int
  culture : Int
  religion : Int
  height : Int

/-- cellCoerce embeds the argument list of the `maps_cells` insert
(lines 360-373), in source evaluation order. -/
def cellCoerce (f : JVal) : Except IngestError (Int × CellFields × JVal) := do
  let p ← getProps f
  let g ← getGeom f
  let lid ← localIdField p
  let biome ← intField p ("biome")
  let ty := strField p ("type")
  let population ← intField p ("population")
  let state ← intField p ("state")
  let culture ← intField p ("culture")
  let religion ← intField p ("religion")
  let height ← intField p ("height")
  Except.ok (lid, ⟨biome, ty, population, state, culture, religion, height⟩, g)

/-- BurgFields holds the non-key typed columns of `maps_burgs`. -/
structure BurgFields where
  name : Option PyStr
  state : Option PyStr
  stateFull : Option PyStr
  province : Option PyStr
  provinceFull : Option PyStr
  culture : Option PyStr
  religion : Option PyStr
  population : Int
  populationRaw : ℚ
  elevation : Int
  temperature : Option PyStr
  temperatureLikeness : Option PyStr
  capital : Bool
  port : Bool
  citadel : Bool
  walls : Bool
  plaza : Bool
  temple : Bool
  shanty : Bool
  xWorld : Int
  yWorld : Int
  xPixel : ℚ
  yPixel : ℚ
  cell : Int
  emblem : Option JVal

/-- burgCoerce embeds the argument list of the `maps_burgs` insert
(lines 409-440), in source evaluation order. -/
def burgCoerce (f : JVal) : Except IngestError (Int × BurgFields × JVal) := do
  let p ← getProps f
  let g ← getGeom f
  let lid ← localIdField p
  let name := strField p ("name")
  let state := strField p ("state")
  let stateFull := strField p ("stateFull")
  let province := strField p ("province")
  let provinceFull := strField p ("provinceFull")
  let culture := strField p ("culture")
  let religion := strField p ("religion")
  let population ← intField p ("population")
  let populationRaw ← floatField p ("populationRaw")
  let elevation ← intField p ("elevation")
  let temperature := strField p ("temperature")
  let temperatureLikeness := strField p ("temperatureLikeness")
  let capital := boolField p ("capital")
  let port := boolField p ("port")
  let citadel := boolField p ("citadel")
  let walls := boolField p ("walls")
  let plaza := boolField p ("plaza")
  let temple := boolField p ("temple")
  let shanty := boolField p ("shanty")
  let xWorld ← intField p ("xWorld")
  let yWorld ← intField p ("yWorld")
  let xPixel ← floatField p ("xPixel")
  let yPixel ← floatField p ("yPixel")
  let cell ← intField p ("cell")
  let emblem := emblemField p
  Except.ok (lid,
    ⟨name, state, stateFull, province, provinceFull, culture, religion, population,
     populationRaw, elevation, temperature, temperatureLikeness, capital, port, citadel,
     walls, plaza, temple, shanty, xWorld, yWorld, xPixel, yPixel, cell, emblem⟩, g)

/-- RouteFields holds the non-key typed columns of `maps_routes`. -/
structure RouteFields where
  name : Option PyStr
  type : Option PyStr
  feature : Int

/-- routeCoerce embeds the argument list of the `maps_routes` insert
(lines 464-473), in source evaluation order. -/
def routeCoerce (f : JVal) : Except IngestError (Int × RouteFields × JVal) := do
  let p ← getProps f
  let g ← getGeom f
  let lid ← localIdField p
  let name := strField p ("name")
  let ty := strField p ("type")
  let feature ← intField p ("feature")
  Except.ok (lid, ⟨name, ty, feature⟩, g)

/-- RiverFields holds the non-key typed columns of `maps_rivers`.  The three
numeric measures are nullable. -/
structure RiverFields where
  name : Option PyStr
  type : Option PyStr
  discharge : Option ℚ
  length : Option ℚ
  width : Option ℚ

/-- riverCoerce embeds the argument list of the `maps_rivers` insert
(lines 498-509), in source evaluation order: discharge, length and width
use the null-defaulting optional pattern. -/
def riverCoerce (f : JVal) : Except IngestError (Int × RiverFields × JVal) := do
  let p ← getProps f
  let g ← getGeom f
  let lid ← localIdField p
  let name := strField p ("name")
  let ty := strField p ("type")
  let discharge ← optFloatField p ("discharge")
  let length ← optFloatField p ("length")
  let width ← optFloatField p ("width")
  Except.ok (lid, ⟨name, ty, discharge, length, width⟩, g)

/-- MarkerFields holds the non-key typed columns of `maps_markers`.  The two
pixel coordinates are nullable. -/
structure MarkerFields where
  type : Option PyStr
  icon : Option PyStr
  x_px : Option ℚ
  y_px : Option ℚ
  note : Option PyStr

/-- markerCoerce embeds the argument list of the `maps_markers` insert
(lines 534-545), in source evaluation order: x_px and y_px use the
null-defaulting optional pattern. -/
def markerCoerce (f : JVal) : Except IngestError (Int × MarkerFields × JVal) := do
  let p ← getProps f
  let g ← getGeom f
  let lid ← localIdField p
  let ty := strField p ("type")
  let icon := strField p ("icon")
  let x_px ← optFloatField p ("x_px")
  let y_px ← optFloatField p ("y_px")
  let note := strField p ("note")
  Except.ok (lid, ⟨ty, icon, x_px, y_px, note⟩, g)

/-- ingest_cells embeds `ingest_cells` (lines 340-376): read the document's
features and fold the insert loop over them. -/
def ingest_cells (wid : String) (doc : Bag) (tbl : List (FeatRow CellFields)) (fresh : Nat) :
    List (FeatRow CellFields) × Nat × Except IngestError Nat :=
  match featuresOf doc with
  | Except.error e => (tbl, fresh, Except.error e)
  | Except.ok fs => ingestFeatures cellCoerce wid fs tbl fresh 0

/-- ingest_burgs embeds `ingest_burgs` (lines 379-443). -/
def ingest_burgs (wid : String) (doc : Bag) (tbl : List (FeatRow BurgFields)) (fresh : Nat) :
    List (FeatRow BurgFields) × Nat × Except IngestError Nat :=
  match featuresOf doc with
  | Except.error e => (tbl, fresh, Except.error e)
  | Except.ok fs => ingestFeatures burgCoerce wid fs tbl fresh 0

/-- ingest_routes embeds `ingest_routes` (lines 446-476). -/
def ingest_routes (wid : String) (doc : Bag) (tbl : List (FeatRow RouteFields)) (fresh : Nat) :
    List (FeatRow RouteFields) × Nat × Except IngestError Nat :=
  match featuresOf doc with
  | Except.error e => (tbl, fresh, Except.error e)
  | Except.ok fs => ingestFeatures routeCoerce wid fs tbl fresh 0

/-- ingest_rivers embeds `ingest_rivers` (lines 479-512). -/
def ingest_rivers (wid : String) (doc : Bag) (tbl : List (FeatRow RiverFields)) (fresh : Nat) :
    List (FeatRow RiverFields) × Nat × Except IngestError Nat :=
  match featuresOf doc with
  | Except.error e => (tbl, fresh, Except.error e)
  | Except.ok fs => ingestFeatures riverCoerce wid fs tbl fresh 0

/-- ingest_markers embeds `ingest_markers` (lines 515-548). -/
def ingest_markers (wid : String) (doc : Bag) (tbl : List (FeatRow MarkerFields)) (fresh : Nat) :
    List (FeatRow MarkerFields) × Nat × Except IngestError Nat :=
  match featuresOf doc with
  | Except.error e => (tbl, fresh, Except.error e)
  | Except.ok fs => ingestFeatures markerCoerce wid fs tbl fresh 0

/-- Kind enumerates the five feature categories. -/
inductive Kind where
  | cells
  | burgs
  | routes
  | rivers
  | markers
  deriving DecidableEq

/-- kindOrder is the fixed discovery/ingestion order: `find_world_files`
(lines 560-566) inserts into its dict in this order, and `import_world`
iterates `world_files.items()` in dict insertion order. -/
def kindOrder : List Kind := [Kind.cells, Kind.burgs, Kind.routes, Kind.rivers, Kind.markers]

/-- presentKinds lists the kinds whose file was discovered, in the fixed
order. -/
def presentKinds (files : Kind → Option Bag) : List Kind :=
  kindOrder.filter (fun k => (files k).isSome)

/-- DB is the database state touched by one import run: the worlds table,
the five per-kind feature tables, and a counter standing in for the uuid
generator. -/
structure DB where
  worlds : List WorldRow
  cells : List (FeatRow CellFields)
  burgs : List (FeatRow BurgFields)
  routes : List (FeatRow RouteFields)
  rivers : List (FeatRow RiverFields)
  markers : List (FeatRow MarkerFields)
  fresh : Nat

/-- rowCount gives the number of rows of one kind's table. -/
def rowCount (db : DB) : Kind → Nat
  | Kind.cells => db.cells.length
  | Kind.burgs => db.burgs.length
  | Kind.routes => db.routes.length
  | Kind.rivers => db.rivers.length
  | Kind.markers => db.markers.length

/-- ingestKind dispatches `import_functions[file_type]` (lines 604-616). -/
def ingestKind (k : Kind) (wid : String) (doc : Bag) (db : DB) : DB × Except IngestError Nat :=
  match k with
  | Kind.cells =>
    let r := ingest_cells wid doc db.cells db.fresh
    ({ db with cells := r.1, fresh := r.2.1 }, r.2.2)
  | Kind.burgs =>
    let r := ingest_burgs wid doc db.burgs db.fresh
    ({ db with burgs := r.1, fresh := r.2.1 }, r.2.2)
  | Kind.routes =>
    let r := ingest_routes wid doc db.routes db.fresh
    ({ db with routes := r.1, fresh := r.2.1 }, r.2.2)
  | Kind.rivers =>
    let r := ingest_rivers wid doc db.rivers db.fresh
    ({ db with rivers := r.1, fresh := r.2.1 }, r.2.2)
  | Kind.markers =>
    let r := ingest_markers wid doc db.markers db.fresh
    ({ db with markers := r.1, fresh := r.2.1 }, r.2.2)

/-- Event records the completion of one pipeline stage, for stating the
ordering guarantees of the orchestrator. -/
inductive Event where
  | metadata
  | resolveWorld
  | ingest (k : Kind)
  deriving DecidableEq

/-- ImportError is a hard failure of one import run. -/
inductive ImportError where
  | meta (e : MetaError)
  | ingestFail (k : Kind) (e : IngestError)
  deriving DecidableEq

/-- runIngests embeds the `for file_type, file_path in world_files.items()`
loop of `import_world` (lines 612-621): each present kind is ingested in
order; the first failure is re-raised, aborting the run but keeping every
change already made (earlier kinds' files are already committed, and the
failing kind's partial rows persist because nothing opened a transaction). -/
def runIngests (wid : String) (files : Kind → Option Bag) :
    List Kind → DB → List Event → Nat → List Event × DB × Except ImportError Nat
  | [], db, acc, total => (acc, db, Except.ok total)
  | k :: ks, db, acc, total =>
    match files k with
    | none => runIngests wid files ks db acc total
    | some doc =>
      let res := ingestKind k wid doc db
      match res.2 with
      | Except.error e => (acc ++ [Event.ingest k], res.1, Except.error (ImportError.ingestFail k e))
      | Except.ok n => runIngests wid files ks res.1 (acc ++ [Event.ingest k]) (total + n)

/-- importWorld embeds `import_world` (lines 579-623).  Inputs beyond the
discovered files: `dirs`/`ex`/`svgDims` are the filesystem facts consumed by
metadata reconciliation, `writeOk` is whether writing the metadata artifact
succeeds (`_write_metadata_file` raises otherwise), `freshWorldId` the uuid
a new world would get, `now` the database clock.  With no discovered files
the run logs and returns normally (a no-op, not an error).  Otherwise:
metadata reconciliation, artifact write, world identity resolution, then
the per-kind ingest loop. -/
def importWorld (world : String) (files : Kind → Option Bag) (dirs : List String)
    (ex : String → String → Bool) (svgDims : String × String → Option (Nat × Nat))
    (writeOk : Bool) (freshWorldId : String) (now : Nat) (db : DB) :
    List Event × DB × Except ImportError Nat :=
  match presentKinds files with
  | [] => ([], db, Except.ok 0)
  | _ :: _ =>
    match build_map_metadata world ((kindOrder.filterMap files).map Option.some) dirs ex svgDims with
    | Except.error e => ([], db, Except.error (ImportError.meta e))
    | Except.ok meta =>
      if writeOk then
        let cw := create_world_entry world meta freshWorldId now db.worlds
        runIngests cw.1 files (presentKinds files) ({ db with worlds := cw.2 })
          [Event.metadata, Event.resolveWorld] 0
      else ([], db, Except.error (ImportError.meta MetaError.persistFailure))

/-- coerceOk states that one feature coerces without raising, for the
relevant kind. -/
def coerceOk : Kind → JVal → Prop
  | Kind.cells, f => ∃ o, cellCoerce f = Except.ok o
  | Kind.burgs, f => ∃ o, burgCoerce f = Except.ok o
  | Kind.routes, f => ∃ o, routeCoerce f = Except.ok o
  | Kind.rivers, f => ∃ o, riverCoerce f = Except.ok o
  | Kind.markers, f => ∃ o, markerCoerce f = Except.ok o

/-- kindOk states that one discovered document ingests without raising: its
features value is a list and every feature coerces. -/
def kindOk (k : Kind) (doc : Bag) : Prop :=
  ∃ fs, featuresOf doc = Except.ok fs ∧ ∀ f ∈ fs, coerceOk k f

/-- c2doc is a cells document whose first feature has local id 1 and whose
second feature has an empty property bag (no local id). -/
def c2doc : Bag :=
  [(("features"), JVal.arr
    [JVal.obj [(("properties"), JVal.obj [(("id"), JVal.num 1)])],
     JVal.obj [(("properties"), JVal.obj [])]])]

/-- c7feat is a feature carrying only its local id; every non-key property
is absent. -/
def c7feat : JVal := JVal.obj [(("properties"), JVal.obj [(("id"), JVal.num 1)])]

/-- c5fileBad is a parsed document carrying a non-numeric
`meters_per_pixel`. -/
def c5fileBad : Bag :=
  [(("metadata"), JVal.obj [(("scale"), JVal.obj
    [(("meters_per_pixel"), JVal.str (strCodes ("abc")))])])]

/-- c5fileGood is a parsed document carrying the numeric scale 2. -/
def c5fileGood : Bag :=
  [(("metadata"), JVal.obj [(("scale"), JVal.obj
    [(("meters_per_pixel"), JVal.num 2)])])]

/-- c6ex is a filesystem where directory A holds only `w_map.svg` and
directory B holds only `w_states.svg`. -/
def c6ex (d n : String) : Bool :=
  (d == ("A") && n == ("w_map.svg")) || (d == ("B") && n == ("w_states.svg"))

/-- c1feat100 is a cells feature with local id 7 and population 100. -/
def c1feat100 : JVal :=
  JVal.obj [(("properties"), JVal.obj [(("id"), JVal.num 7), (("population"), JVal.num 100)])]

/-- c1feat200 is a cells feature with local id 7 and population 200. -/
def c1feat200 : JVal :=
  JVal.obj [(("properties"), JVal.obj [(("id"), JVal.num 7), (("population"), JVal.num 200)])]

/-- c1pl100 is the coerced payload of `c1feat100`. -/
def c1pl100 : CellFields := ⟨0, none, 100, 0, 0, 0, 0⟩

/-- c1pl200 is the coerced payload of `c1feat200`. -/
def c1pl200 : CellFields := ⟨0, none, 200, 0, 0, 0, 0⟩

/-- emptyDB is a database with no rows. -/
def emptyDB : DB := ⟨[], [], [], [], [], [], 0⟩

/-- m0 is a concrete metadata record for 1000x500 pixels at scale 2. -/
def m0 : MapMetadata := ⟨1000, 500, 2, computeBounds 1000 500 2⟩

/-- c89cellsDoc is a cells document carrying scale metadata and one feature
with local id 1. -/
def c89cellsDoc : Bag :=
  [(("metadata"), JVal.obj [(("scale"), JVal.obj [(("meters_per_pixel"), JVal.num 2)])]),
   (("features"), JVal.arr [JVal.obj [(("properties"), JVal.obj [(("id"), JVal.num 1)])]])]

/-- c89files discovers only a cells file. -/
def c89files : Kind → Option Bag
  | Kind.cells => some c89cellsDoc
  | _ => none

/-- c89ex is a filesystem where directory D holds `w_states.svg`. -/
def c89ex (d n : String) : Bool := d == ("D") && n == ("w_states.svg")

/-- c89dims reports 1000x500 pixels for any drawing. -/
def c89dims (_ : String × String) : Option (Nat × Nat) := some (1000, 500)

/-- AfmgRow is one row of a table of the variant importer
`src/afmg_geojson_importer.py`: its `id` column IS the local feature id
(the conflict target of `ON CONFLICT (id)`), and the tables carry no world
column at all — `ingest_cells` there takes only a path, no world id, and
generates no per-row uuid. -/
structure AfmgRow (α : Type) where
  id : Int
  payload : α
  geom : JVal

/-- afmgIdMatch is the variant importer's upsert conflict target `(id)`. -/
def afmgIdMatch (lid : Int) (r : AfmgRow α) : Bool := r.id == lid

/-- afmgFilterId lists the rows holding a given local feature id. -/
def afmgFilterId (tbl : List (AfmgRow α)) (lid : Int) : List (AfmgRow α) :=
  tbl.filter (afmgIdMatch lid)

/-- afmgCount counts the rows holding a given local feature id. -/
def afmgCount (tbl : List (AfmgRow α)) (lid : Int) : Nat :=
  (afmgFilterId tbl lid).length

/-- afmgKeysUnique states the primary-key constraint on `id` backing the
variant importer's `ON CONFLICT (id)`. -/
def afmgKeysUnique (tbl : List (AfmgRow α)) : Prop :=
  tbl.Pairwise (fun r s => r.id ≠ s.id)

/-- upsertAfmg embeds the variant importer's `INSERT ... ON CONFLICT (id)
DO UPDATE SET <all non-key columns> = EXCLUDED...` (e.g. ingest_cells,
src/afmg_geojson_importer.py lines 5-28): the key is the local feature id
alone, so a conflicting insert overwrites the row's data columns regardless
of which world's file the feature came from. -/
def upsertAfmg (tbl : List (AfmgRow α)) (lid : Int) (pl : α) (g : JVal) : List (AfmgRow α) :=
  match tbl with
  | [] => [⟨lid, pl, g⟩]
  | r :: rest =>
    if afmgIdMatch lid r then ({ r with payload := pl, geom := g }) :: rest
    else r :: upsertAfmg rest lid pl g

/-- ingestAfmgFeatures embeds the variant importer's per-file feature loop:
like `ingestFeatures` but with no world id and no uuid generation, and
upserting on the local id alone. -/
def ingestAfmgFeatures (coerce : JVal → Except IngestError (Int × α × JVal)) :
    List JVal → List (AfmgRow α) → Nat → List (AfmgRow α) × Except IngestError Nat
  | [], tbl, rows => (tbl, Except.ok rows)
  | f :: fs, tbl, rows =>
    match coerce f with
    | Except.error e => (tbl, Except.error e)
    | Except.ok (lid, pl, g) => ingestAfmgFeatures coerce fs (upsertAfmg tbl lid pl g) (rows + 1)

/-- AfmgCellFields holds the non-key columns of the variant importer's
`maps_cells` (its `type` column uses total `str(p.get("type", ""))`, not
`_safe_str`, so it is never null). -/
structure AfmgCellFields where
  biome : Int
  type : PyStr
  population : Int
  state : Int
  culture : Int
  religion : Int
  height : Int

/-- afmgCellCoerce embeds the argument list of the variant importer's
`maps_cells` insert (src/afmg_geojson_importer.py lines 15-26), in source
evaluation order. -/
def afmgCellCoerce (f : JVal) : Except IngestError (Int × AfmgCellFields × JVal) := do
  let p ← getProps f
  let g ← getGeom f
  let lid ← localIdField p
  let biome ← intField p ("biome")
  let ty := pyStr (pGetD p ("type") (JVal.str []))
  let population ← intField p ("population")
  let state ← intField p ("state")
  let culture ← intField p ("culture")
  let religion ← intField p ("religion")
  let height ← intField p ("height")
  Except.ok (lid, ⟨biome, ty, population, state, culture, religion, height⟩, g)

/-- ingest_cells_afmg embeds the variant importer's `ingest_cells`
(src/afmg_geojson_importer.py lines 1-28): read the document's features and
fold the insert loop — into the single global cells table, with no world
scoping. -/
def ingest_cells_afmg (doc : Bag) (tbl : List (AfmgRow AfmgCellFields)) :
    List (AfmgRow AfmgCellFields) × Except IngestError Nat :=
  match featuresOf doc with
  | Except.error e => (tbl, Except.error e)
  | Except.ok fs => ingestAfmgFeatures afmgCellCoerce fs tbl 0

/-- c1docA is world A's cells file: one feature with local id 7 and
population 100. -/
def c1docA : Bag :=
  [(("features"), JVal.arr
    [JVal.obj [(("properties"), JVal.obj [(("id"), JVal.num 7), (("population"), JVal.num 100)])]])]

/-- c1docB is world B's cells file: one feature with local id 7 and
population 200. -/
def c1docB : Bag :=
  [(("features"), JVal.arr
    [JVal.obj [(("properties"), JVal.obj [(("id"), JVal.num 7), (("population"), JVal.num 200)])]])]

/-- afmgPl100 is the variant-importer payload of the population-100
feature. -/
def afmgPl100 : AfmgCellFields := ⟨0, [], 100, 0, 0, 0, 0⟩

/-- afmgPl200 is the variant-importer payload of the population-200
feature. -/
def afmgPl200 : AfmgCellFields := ⟨0, [], 200, 0, 0, 0, 0⟩

/-- C3: for every canvas width w, height h and scale s, the reconciled
bounds use the top-left-origin convention north = 0, west = 0,
east = w x s, south = -(h x s); in particular a 1000x500 canvas at scale 2
gives north 0, west 0, east 2000, south -1000. -/
theorem C3_bounds_top_left_origin :
    (∀ (w h : Nat) (s : ℚ),
      (computeBounds w h s).north = 0 ∧ (computeBounds w h s).west = 0
        ∧ (computeBounds w h s).east = (w : ℚ) * s
        ∧ (computeBounds w h s).south = -((h : ℚ) * s))
    ∧ computeBounds 1000 500 2
        = { north := 0, south := -1000, east := 2000, west := 0,
            width_pixels := 1000, height_pixels := 500, meters_per_pixel := 2 } := by
  constructor
  · intro w h s
    exact ⟨rfl, rfl, rfl, rfl⟩
  · simp only [computeBounds, BoundsRec.mk.injEq]
    norm_num

/-- C10: `_safe_str` is total on JSON-decoded values (it is a plain
function in this embedding because the `except` branch is unreachable on
such inputs); it returns null exactly on null input, and any returned
string is free of surrogate code points, hence UTF-8 encodable. -/
theorem C10_safe_str_total :
    (∀ v : JVal, safe_str v = none ↔ v = JVal.null)
    ∧ (∀ (v : JVal) (s : PyStr), safe_str v = some s → ∀ c ∈ s, isSurrogate c = false) := by
  constructor
  · intro v
    cases v <;> simp [safe_str]
  · intro v s hs c hc
    have hrem : ∃ t : PyStr, s = removeSurrogates t := by
      cases v <;> simp [safe_str] at hs <;> exact ⟨_, hs.symm⟩
    obtain ⟨t, rfl⟩ := hrem
    have := List.of_mem_filter hc
    simpa using this

/-- C10 witness: evaluating `_safe_str` on a string holding a lone
surrogate followed by letter A drops the surrogate, and the surviving code
point 65 is not a surrogate. -/
theorem C10_witness :
    safe_str (JVal.str [55296, 65]) = some [65] ∧ isSurrogate 65 = false :=
  ⟨rfl, C10_safe_str_total.2 (JVal.str [55296, 65]) [65] rfl 65 (by simp)⟩

/-- C2 (code evidence at the failing input): ingesting a cells file whose
first feature has id 1 and whose second feature lacks an id raises
MissingLocalId, yet the row for id 1 is left committed — `transaction()`
returns `pool.acquire()`, which opens no transaction, so each insert
autocommitted and nothing is rolled back, contradicting the claimed
no-partial-file-commits behaviour. -/
theorem C2_partial_commit_at_failing_input :
    (ingest_cells ("W") c2doc [] 0).2.2 = Except.error IngestError.missingLocalId
    ∧ ((ingest_cells ("W") c2doc [] 0).1).map (fun r => r.localId) = [1] :=
  ⟨rfl, rfl⟩

/-- C7 counterexample: river `discharge` is a numeric (double precision)
non-key field, yet coercing a river feature whose property bag lacks it
yields null, not the claimed default 0. -/
theorem C7_counterexample :
    riverCoerce c7feat = Except.ok (1, ⟨none, none, none, none, none⟩, JVal.null)
    ∧ (none : Option ℚ) ≠ some 0 :=
  ⟨rfl, by simp⟩

/-- C7 (amended): a property absent from the bag is replaced by the field's
declared default — integer fields 0, the always-float fields 0.0, boolean
fields false, free-form text fields null, and the optional numeric fields
(river discharge/length/width, marker x_px/y_px, burg emblem) null rather
than 0; an absent property bag behaves as an empty one, so a feature
carrying only its id coerces to the all-default row for every kind. -/
theorem C7_amended_defaults :
    (∀ (p : Bag) (k : String), dictGet p k = none → intField p k = Except.ok 0)
    ∧ (∀ (p : Bag) (k : String), dictGet p k = none → floatField p k = Except.ok 0)
    ∧ (∀ (p : Bag) (k : String), dictGet p k = none → boolField p k = false)
    ∧ (∀ (p : Bag) (k : String), dictGet p k = none → strField p k = none)
    ∧ (∀ (p : Bag) (k : String), dictGet p k = none → optFloatField p k = Except.ok none)
    ∧ (∀ p : Bag, dictGet p ("emblem") = none → emblemField p = none)
    ∧ (∀ fs : Bag, dictGet fs ("properties") = none → getProps (JVal.obj fs) = Except.ok [])
    ∧ cellCoerce c7feat = Except.ok (1, ⟨0, none, 0, 0, 0, 0, 0⟩, JVal.null)
    ∧ burgCoerce c7feat = Except.ok (1,
        ⟨none, none, none, none, none, none, none, 0, 0, 0, none, none, false, false, false,
         false, false, false, false, 0, 0, 0, 0, 0, none⟩, JVal.null)
    ∧ routeCoerce c7feat = Except.ok (1, ⟨none, none, 0⟩, JVal.null)
    ∧ riverCoerce c7feat = Except.ok (1, ⟨none, none, none, none, none⟩, JVal.null)
    ∧ markerCoerce c7feat = Except.ok (1, ⟨none, none, none, none, none⟩, JVal.null) := by
  refine ⟨?_, ?_, ?_, ?_, ?_, ?_, ?_, rfl, rfl, rfl, rfl, rfl⟩
  · intro p k h
    simp [intField, pGetD, h]
    rfl
  · intro p k h
    simp [floatField, pGetD, h]
    rfl
  · intro p k h
    simp [boolField, pGetD, h]
    rfl
  · intro p k h
    simp [strField, pGet, h]
    rfl
  · intro p k h
    simp [optFloatField, pGet, h]
  · intro p h
    simp [emblemField, pGet, h]
  · intro fs h
    simp [getProps, pGetD, h]

/-- C7 witness: the amended default rules evaluated at the empty bag for an
integer field and an optional numeric field. -/
theorem C7_witness :
    intField [] ("population") = Except.ok 0
    ∧ optFloatField [] ("discharge") = Except.ok none :=
  ⟨C7_amended_defaults.1 [] ("population") rfl,
   C7_amended_defaults.2.2.2.2.1 [] ("discharge") rfl⟩

/-- C5: scale reconciliation scans the files in discovery order and returns
the first carried `meters_per_pixel` value that `float(...)` accepts;
MissingScale is raised exactly when no readable file carries a value or
every carried value is non-numeric; and concretely a non-numeric scale in
an earlier file does not stop a valid scale in a later file from being
used. -/
theorem C5_first_valid_scale :
    (∀ files : List (Option Bag),
      extract_scale_info files
        = (files.filterMap (fun f => Option.bind f carriedScale)).findSome? pyFloat)
    ∧ (∀ files : List (Option Bag),
      scaleOrMissing files = Except.error MetaError.missingScale
        ↔ ∀ v ∈ files.filterMap (fun f => Option.bind f carriedScale), pyFloat v = none)
    ∧ extract_scale_info [some c5fileBad, some c5fileGood] = some 2 := by
  have hmain : ∀ files : List (Option Bag),
      extract_scale_info files
        = (files.filterMap (fun f => Option.bind f carriedScale)).findSome? pyFloat := by
    intro files
    induction files with
    | nil => rfl
    | cons file rest ih =>
      cases file with
      | none => simpa [extract_scale_info] using ih
      | some fields =>
        cases hc : carriedScale fields with
        | none => simpa [extract_scale_info, hc] using ih
        | some v =>
          cases hv : pyFloat v with
          | none => simpa [extract_scale_info, hc, List.findSome?_cons, hv] using ih
          | some q => simp [extract_scale_info, hc, List.findSome?_cons, hv]
  refine ⟨hmain, ?_, rfl⟩
  intro files
  rw [scaleOrMissing]
  rw [hmain files]
  cases h : (files.filterMap (fun f => Option.bind f carriedScale)).findSome? pyFloat with
  | none =>
    simp only [h]
    constructor
    · intro _
      exact List.findSome?_eq_none_iff.mp h
    · intro _
      trivial
  | some q =>
    simp only [h]
    constructor
    · intro hx
      cases hx
    · intro hall
      have := List.findSome?_eq_none_iff.mpr hall
      rw [h] at this
      cases this

/-- keyMatch is exactly equality of the (world id, local id) key. -/
theorem keyMatch_eq_true_iff {w : String} {lid : Int} {r : FeatRow α} :
    keyMatch w lid r = true ↔ r.worldId = w ∧ r.localId = lid := by
  simp [keyMatch]

/-- Overwriting the data columns of a row preserves its key. -/
theorem keyMatch_payload (w : String) (lid : Int) (r : FeatRow α) (pl : α) (g : JVal) :
    keyMatch w lid ({ r with payload := pl, geom := g }) = keyMatch w lid r := rfl

/-- On a table with unique keys, an upsert leaves exactly the freshly
written row under the touched key: the second import's data columns, the
key itself, and either the old row id (conflict) or the fresh one. -/
theorem filterKey_upsert : ∀ (tbl : List (FeatRow α)) (w : String) (lid : Int) (n : Nat)
    (pl : α) (g : JVal), featKeysUnique tbl →
    ∃ rid, filterKey (upsertFeat tbl w lid n pl g) w lid = [⟨rid, w, lid, pl, g⟩]
  | [], w, lid, n, pl, g, _ => ⟨n, by simp [upsertFeat, filterKey, List.filter, keyMatch]⟩
  | r :: rest, w, lid, n, pl, g, hu => by
    rw [featKeysUnique, List.pairwise_cons] at hu
    by_cases hk : keyMatch w lid r = true
    · obtain ⟨hw, hl⟩ := keyMatch_eq_true_iff.mp hk
      refine ⟨r.rowId, ?_⟩
      have hrest : filterKey rest w lid = [] := by
        rw [filterKey, List.filter_eq_nil_iff]
        intro s hs
        intro habs
        obtain ⟨hsw, hsl⟩ := keyMatch_eq_true_iff.mp habs
        exact hu.1 s hs ⟨hw.trans hsw.symm, hl.trans hsl.symm⟩
      have : filterKey (({ r with payload := pl, geom := g }) :: rest) w lid
          = ({ r with payload := pl, geom := g }) :: filterKey rest w lid := by
        rw [filterKey, List.filter_cons]
        rw [keyMatch_payload, hk]
        rfl
      rw [upsertFeat, if_pos hk, this, hrest]
      have hr : ({ r with payload := pl, geom := g } : FeatRow α) = ⟨r.rowId, w, lid, pl, g⟩ := by
        cases r
        simp_all
      rw [hr]
    · obtain ⟨rid, hrec⟩ := filterKey_upsert rest w lid n pl g hu.2
      refine ⟨rid, ?_⟩
      rw [upsertFeat, if_neg hk]
      rw [filterKey, List.filter_cons]
      simp only [hk]
      exact hrec

/-- Any row of an upserted table either keeps the key of an original row or
carries the upserted key. -/
theorem mem_upsert_key : ∀ (tbl : List (FeatRow α)) (w : String) (lid : Int) (n : Nat)
    (pl : α) (g : JVal) (s : FeatRow α), s ∈ upsertFeat tbl w lid n pl g →
    (∃ t ∈ tbl, s.worldId = t.worldId ∧ s.localId = t.localId)
      ∨ (s.worldId = w ∧ s.localId = lid)
  | [], w, lid, n, pl, g, s, hs => by
    rw [upsertFeat] at hs
    simp at hs
    subst hs
    exact Or.inr ⟨rfl, rfl⟩
  | r :: rest, w, lid, n, pl, g, s, hs => by
    rw [upsertFeat] at hs
    by_cases hk : keyMatch w lid r = true
    · rw [if_pos hk] at hs
      rcases List.mem_cons.mp hs with h | h
      · subst h
        exact Or.inl ⟨r, List.mem_cons_self r rest, rfl, rfl⟩
      · exact Or.inl ⟨s, List.mem_cons_of_mem r h, rfl, rfl⟩
    · rw [if_neg hk] at hs
      rcases List.mem_cons.mp hs with h | h
      · subst h
        exact Or.inl ⟨s, List.mem_cons_self s rest, rfl, rfl⟩
      · rcases mem_upsert_key rest w lid n pl g s h with ⟨t, ht, hkey⟩ | hkey
        · exact Or.inl ⟨t, List.mem_cons_of_mem r ht, hkey⟩
        · exact Or.inr hkey

/-- An upsert preserves the uniqueness of (world id, local id) keys. -/
theorem upsert_keysUnique : ∀ (tbl : List (FeatRow α)) (w : String) (lid : Int) (n : Nat)
    (pl : α) (g : JVal), featKeysUnique tbl → featKeysUnique (upsertFeat tbl w lid n pl g)
  | [], w, lid, n, pl, g, _ => by
    rw [upsertFeat]
    exact List.pairwise_singleton _ _
  | r :: rest, w, lid, n, pl, g, hu => by
    rw [featKeysUnique, List.pairwise_cons] at hu
    by_cases hk : keyMatch w lid r = true
    · rw [upsertFeat, if_pos hk]
      rw [featKeysUnique, List.pairwise_cons]
      exact ⟨fun s hs => hu.1 s hs, hu.2⟩
    · rw [upsertFeat, if_neg hk]
      rw [featKeysUnique, List.pairwise_cons]
      constructor
      · intro s hs
        rcases mem_upsert_key rest w lid n pl g s hs with ⟨t, ht, hsw, hsl⟩ | ⟨hsw, hsl⟩
        · intro habs
          exact hu.1 t ht ⟨habs.1.trans hsw, habs.2.trans hsl⟩
        · intro habs
          exact hk (keyMatch_eq_true_iff.mpr ⟨habs.1.trans hsw, habs.2.trans hsl⟩)
      · exact upsert_keysUnique rest w lid n pl g hu.2

/-- When the key is already present, an upsert updates in place and does
not change the number of rows. -/
theorem upsert_length_of_hit : ∀ (tbl : List (FeatRow α)) (w : String) (lid : Int) (n : Nat)
    (pl : α) (g : JVal), featCount tbl w lid ≠ 0 →
    (upsertFeat tbl w lid n pl g).length = tbl.length
  | [], w, lid, n, pl, g, h => absurd rfl h
  | r :: rest, w, lid, n, pl, g, h => by
    by_cases hk : keyMatch w lid r = true
    · rw [upsertFeat, if_pos hk]
      simp
    · rw [upsertFeat, if_neg hk]
      have hcount : featCount (r :: rest) w lid = featCount rest w lid := by
        rw [featCount, filterKey, List.filter_cons]
        simp only [hk]
        rfl
      rw [hcount] at h
      simp [upsert_length_of_hit rest w lid n pl g h]

/-- afmgIdMatch is exactly equality of local feature ids. -/
theorem afmgIdMatch_true_iff {lid : Int} {r : AfmgRow α} :
    afmgIdMatch lid r = true ↔ r.id = lid := by
  simp [afmgIdMatch]

/-- On a variant-importer table with unique ids, an upsert leaves exactly
the freshly written row under the touched id, whatever world it came
from. -/
theorem afmg_filterId_upsert : ∀ (tbl : List (AfmgRow α)) (lid : Int) (pl : α) (g : JVal),
    afmgKeysUnique tbl →
    afmgFilterId (upsertAfmg tbl lid pl g) lid = [⟨lid, pl, g⟩]
  | [], lid, pl, g, _ => by simp [upsertAfmg, afmgFilterId, List.filter, afmgIdMatch]
  | r :: rest, lid, pl, g, hu => by
    rw [afmgKeysUnique, List.pairwise_cons] at hu
    by_cases hk : afmgIdMatch lid r = true
    · have hr : r.id = lid := afmgIdMatch_true_iff.mp hk
      have hrest : afmgFilterId rest lid = [] := by
        rw [afmgFilterId, List.filter_eq_nil_iff]
        intro s hs habs
        exact hu.1 s hs (hr.trans (afmgIdMatch_true_iff.mp habs).symm)
      have hcons : afmgFilterId (({ r with payload := pl, geom := g }) :: rest) lid
          = ({ r with payload := pl, geom := g }) :: afmgFilterId rest lid := by
        rw [afmgFilterId, List.filter_cons]
        have hk2 : afmgIdMatch lid ({ r with payload := pl, geom := g }) = true := hk
        rw [hk2]
        rfl
      rw [upsertAfmg, if_pos hk, hcons, hrest]
      have hrow : ({ r with payload := pl, geom := g } : AfmgRow α) = ⟨lid, pl, g⟩ := by
        cases r
        simp_all
      rw [hrow]
    · rw [upsertAfmg, if_neg hk]
      rw [afmgFilterId, List.filter_cons]
      simp only [hk]
      exact afmg_filterId_upsert rest lid pl g hu.2

/-- Any row of a variant-importer upserted table either keeps the id of an
original row or carries the upserted id. -/
theorem afmg_mem_upsert_id : ∀ (tbl : List (AfmgRow α)) (lid : Int) (pl : α) (g : JVal)
    (s : AfmgRow α), s ∈ upsertAfmg tbl lid pl g →
    (∃ t ∈ tbl, s.id = t.id) ∨ s.id = lid
  | [], lid, pl, g, s, hs => by
    rw [upsertAfmg] at hs
    simp at hs
    subst hs
    exact Or.inr rfl
  | r :: rest, lid, pl, g, s, hs => by
    rw [upsertAfmg] at hs
    by_cases hk : afmgIdMatch lid r = true
    · rw [if_pos hk] at hs
      rcases List.mem_cons.mp hs with h | h
      · subst h
        exact Or.inl ⟨r, List.mem_cons_self r rest, rfl⟩
      · exact Or.inl ⟨s, List.mem_cons_of_mem r h, rfl⟩
    · rw [if_neg hk] at hs
      rcases List.mem_cons.mp hs with h | h
      · subst h
        exact Or.inl ⟨s, List.mem_cons_self s rest, rfl⟩
      · rcases afmg_mem_upsert_id rest lid pl g s h with ⟨t, ht, hid⟩ | hid
        · exact Or.inl ⟨t, List.mem_cons_of_mem r ht, hid⟩
        · exact Or.inr hid

/-- A variant-importer upsert preserves id uniqueness. -/
theorem afmg_upsert_keysUnique : ∀ (tbl : List (AfmgRow α)) (lid : Int) (pl : α) (g : JVal),
    afmgKeysUnique tbl → afmgKeysUnique (upsertAfmg tbl lid pl g)
  | [], lid, pl, g, _ => by
    rw [upsertAfmg]
    exact List.pairwise_singleton _ _
  | r :: rest, lid, pl, g, hu => by
    rw [afmgKeysUnique, List.pairwise_cons] at hu
    by_cases hk : afmgIdMatch lid r = true
    · rw [upsertAfmg, if_pos hk]
      rw [afmgKeysUnique, List.pairwise_cons]
      exact ⟨fun s hs => hu.1 s hs, hu.2⟩
    · rw [upsertAfmg, if_neg hk]
      rw [afmgKeysUnique, List.pairwise_cons]
      constructor
      · intro s hs
        rcases afmg_mem_upsert_id rest lid pl g s hs with ⟨t, ht, hsid⟩ | hsid
        · intro habs
          exact hu.1 t ht (habs.trans hsid)
        · intro habs
          exact hk (afmgIdMatch_true_iff.mpr (habs.trans hsid))
      · exact afmg_upsert_keysUnique rest lid pl g hu.2

/-- When the id is already present, a variant-importer upsert updates in
place and does not change the number of rows. -/
theorem afmg_upsert_length_of_hit : ∀ (tbl : List (AfmgRow α)) (lid : Int) (pl : α) (g : JVal),
    afmgCount tbl lid ≠ 0 → (upsertAfmg tbl lid pl g).length = tbl.length
  | [], lid, pl, g, h => absurd rfl h
  | r :: rest, lid, pl, g, h => by
    by_cases hk : afmgIdMatch lid r = true
    · rw [upsertAfmg, if_pos hk]
      simp
    · rw [upsertAfmg, if_neg hk]
      have hcount : afmgCount (r :: rest) lid = afmgCount rest lid := by
        rw [afmgCount, afmgFilterId, List.filter_cons]
        simp only [hk]
        rfl
      rw [hcount] at h
      simp [afmg_upsert_length_of_hit rest lid pl g h]

/-- C1 counterexample: in the claim's second cited source
(src/afmg_geojson_importer.py) the upsert is NOT keyed on (world
identifier, local feature id) — ingesting world A's cells file (local id 7,
population 100) and then world B's cells file (same local id 7, population
200) leaves a single row carrying B's population 200, and no row with A's
population 100 survives; under the claimed (world, local id) keying world
A's row would be untouched by world B's import. -/
theorem C1_counterexample :
    (ingest_cells_afmg c1docB (ingest_cells_afmg c1docA []).1).1
      = [⟨7, afmgPl200, JVal.null⟩]
    ∧ ¬ ∃ r ∈ (ingest_cells_afmg c1docB (ingest_cells_afmg c1docA []).1).1,
        r.payload.population = 100 := by
  refine ⟨rfl, ?_⟩
  intro h
  obtain ⟨r, hr, hpop⟩ := h
  have hl : (ingest_cells_afmg c1docB (ingest_cells_afmg c1docA []).1).1
      = [⟨7, afmgPl200, JVal.null⟩] := rfl
  rw [hl] at hr
  have hr2 : r = ⟨7, afmgPl200, JVal.null⟩ := by simpa using hr
  subst hr2
  exact absurd hpop (by decide)

/-- C1 (amended): the two importers key their upserts differently.  In the
working importer (src/working/import_geojson.py) the upsert is keyed on
(world id, local feature id): importing a feature and re-importing the same
local id under the same world processes both rows (count 1 each), leaves
exactly one row under that key carrying the second import's data columns,
adds no row on the re-import, and preserves key uniqueness.  In the variant
importer (src/afmg_geojson_importer.py) the tables have no world column and
the upsert is keyed on the local feature id alone: a re-import of the same
local id — from the same world's file or any other world's — updates the
single row in place with the second import's values, adds no row, and never
duplicates. -/
theorem C1_upsert_keying_per_importer (α : Type)
    (coerce : JVal → Except IngestError (Int × α × JVal))
    (w : String) (tbl : List (FeatRow α)) (fresh : Nat) (f f2 : JVal) (lid : Int)
    (pl pl2 : α) (g g2 : JVal)
    (hu : featKeysUnique tbl)
    (h1 : coerce f = Except.ok (lid, pl, g))
    (h2 : coerce f2 = Except.ok (lid, pl2, g2))
    (β : Type) (coerceA : JVal → Except IngestError (Int × β × JVal))
    (tblA : List (AfmgRow β)) (fA fA2 : JVal) (lidA : Int) (plA plA2 : β) (gA gA2 : JVal)
    (huA : afmgKeysUnique tblA)
    (h1A : coerceA fA = Except.ok (lidA, plA, gA))
    (h2A : coerceA fA2 = Except.ok (lidA, plA2, gA2)) :
    (ingestFeatures coerce w [f] tbl fresh 0
      = (upsertFeat tbl w lid fresh pl g, fresh + 1, Except.ok 1)
    ∧ ingestFeatures coerce w [f2] (upsertFeat tbl w lid fresh pl g) (fresh + 1) 0
      = (upsertFeat (upsertFeat tbl w lid fresh pl g) w lid (fresh + 1) pl2 g2,
          fresh + 1 + 1, Except.ok 1)
    ∧ featCount (upsertFeat (upsertFeat tbl w lid fresh pl g) w lid (fresh + 1) pl2 g2) w lid = 1
    ∧ (∃ rid, filterKey (upsertFeat (upsertFeat tbl w lid fresh pl g) w lid (fresh + 1) pl2 g2) w lid
        = [⟨rid, w, lid, pl2, g2⟩])
    ∧ (upsertFeat (upsertFeat tbl w lid fresh pl g) w lid (fresh + 1) pl2 g2).length
        = (upsertFeat tbl w lid fresh pl g).length
    ∧ featKeysUnique (upsertFeat (upsertFeat tbl w lid fresh pl g) w lid (fresh + 1) pl2 g2))
    ∧ (ingestAfmgFeatures coerceA [fA] tblA 0 = (upsertAfmg tblA lidA plA gA, Except.ok 1)
    ∧ ingestAfmgFeatures coerceA [fA2] (upsertAfmg tblA lidA plA gA) 0
      = (upsertAfmg (upsertAfmg tblA lidA plA gA) lidA plA2 gA2, Except.ok 1)
    ∧ afmgCount (upsertAfmg (upsertAfmg tblA lidA plA gA) lidA plA2 gA2) lidA = 1
    ∧ afmgFilterId (upsertAfmg (upsertAfmg tblA lidA plA gA) lidA plA2 gA2) lidA
        = [⟨lidA, plA2, gA2⟩]
    ∧ (upsertAfmg (upsertAfmg tblA lidA plA gA) lidA plA2 gA2).length
        = (upsertAfmg tblA lidA plA gA).length
    ∧ afmgKeysUnique (upsertAfmg (upsertAfmg tblA lidA plA gA) lidA plA2 gA2)) := by
  constructor
  · have hu1 := upsert_keysUnique tbl w lid fresh pl g hu
    obtain ⟨rid1, hf1⟩ := filterKey_upsert tbl w lid fresh pl g hu
    obtain ⟨rid2, hf2⟩ := filterKey_upsert (upsertFeat tbl w lid fresh pl g) w lid (fresh + 1)
      pl2 g2 hu1
    have hcount1 : featCount (upsertFeat tbl w lid fresh pl g) w lid = 1 := by
      rw [featCount, hf1]
      rfl
    refine ⟨?_, ?_, ?_, ⟨rid2, hf2⟩, ?_, upsert_keysUnique _ w lid (fresh + 1) pl2 g2 hu1⟩
    · simp [ingestFeatures, h1]
    · simp [ingestFeatures, h2]
    · rw [featCount, hf2]
      rfl
    · exact upsert_length_of_hit _ w lid (fresh + 1) pl2 g2 (by rw [hcount1]; exact one_ne_zero)
  · have huA1 := afmg_upsert_keysUnique tblA lidA plA gA huA
    have hfA1 := afmg_filterId_upsert tblA lidA plA gA huA
    have hfA2 := afmg_filterId_upsert (upsertAfmg tblA lidA plA gA) lidA plA2 gA2 huA1
    have hcountA1 : afmgCount (upsertAfmg tblA lidA plA gA) lidA = 1 := by
      rw [afmgCount, hfA1]
      rfl
    refine ⟨?_, ?_, ?_, hfA2, ?_, afmg_upsert_keysUnique _ lidA plA2 gA2 huA1⟩
    · simp [ingestAfmgFeatures, h1A]
    · simp [ingestAfmgFeatures, h2A]
    · rw [afmgCount, hfA2]
      rfl
    · exact afmg_upsert_length_of_hit _ lidA plA2 gA2 (by rw [hcountA1]; exact one_ne_zero)

/-- C1 witness: in the working importer, importing cell feature id 7 with
population 100 into an empty table and re-importing id 7 with population
200 leaves exactly one row under key (W, 7) carrying population 200; in the
variant importer the same double import leaves exactly one row under id 7
carrying population 200. -/
theorem C1_witness :
    (featCount (upsertFeat (upsertFeat ([] : List (FeatRow CellFields)) ("W") 7 0 c1pl100 JVal.null)
      ("W") 7 1 c1pl200 JVal.null) ("W") 7 = 1
    ∧ ∃ rid, filterKey (upsertFeat (upsertFeat ([] : List (FeatRow CellFields)) ("W") 7 0 c1pl100 JVal.null)
        ("W") 7 1 c1pl200 JVal.null) ("W") 7 = [⟨rid, ("W"), 7, c1pl200, JVal.null⟩])
    ∧ (afmgCount (upsertAfmg (upsertAfmg ([] : List (AfmgRow AfmgCellFields)) 7 afmgPl100 JVal.null)
      7 afmgPl200 JVal.null) 7 = 1
    ∧ afmgFilterId (upsertAfmg (upsertAfmg ([] : List (AfmgRow AfmgCellFields)) 7 afmgPl100 JVal.null)
        7 afmgPl200 JVal.null) 7 = [⟨7, afmgPl200, JVal.null⟩]) := by
  have h := C1_upsert_keying_per_importer CellFields cellCoerce ("W") [] 0
    c1feat100 c1feat200 7 c1pl100 c1pl200 JVal.null JVal.null List.Pairwise.nil rfl rfl
    AfmgCellFields afmgCellCoerce [] c1feat100 c1feat200 7 afmgPl100 afmgPl200 JVal.null JVal.null
    List.Pairwise.nil rfl rfl
  exact ⟨⟨h.1.2.2.1, h.1.2.2.2.1⟩, h.2.2.2.1, h.2.2.2.2.1⟩

/-- Updating a world row in place never changes its name. -/
theorem updateIf_name (name : String) (meta : MapMetadata) (now : Nat) (rid : String)
    (s : WorldRow) :
    (if s.id == rid then updateWorldRow name meta now s else s).name = s.name := by
  by_cases h : s.id == rid <;> simp [h, updateWorldRow]

/-- find? by name commutes with mapping a name-preserving function. -/
theorem find?_name_map (worlds : List WorldRow) (name : String) (f : WorldRow → WorldRow)
    (hf : ∀ r, (f r).name = r.name) :
    (worlds.map f).find? (fun r => r.name == name)
      = (worlds.find? (fun r => r.name == name)).map f := by
  rw [List.find?_map]
  have hp : ((fun r : WorldRow => r.name == name) ∘ f) = (fun r : WorldRow => r.name == name) := by
    funext r
    simp [Function.comp, hf r]
  rw [hp]

/-- filter by name commutes with mapping a name-preserving function. -/
theorem filter_name_map (worlds : List WorldRow) (name : String) (f : WorldRow → WorldRow)
    (hf : ∀ r, (f r).name = r.name) :
    (worlds.map f).filter (fun r => r.name == name)
      = (worlds.filter (fun r => r.name == name)).map f := by
  rw [List.filter_map]
  have hp : ((fun r : WorldRow => r.name == name) ∘ f) = (fun r : WorldRow => r.name == name) := by
    funext r
    simp [Function.comp, hf r]
  rw [hp]

/-- The row count by name is unchanged by the in-place update map. -/
theorem worldCount_map_updateIf (l : List WorldRow) (name : String) (meta : MapMetadata)
    (now : Nat) (rid : String) :
    worldCount (l.map (fun s => if s.id == rid then updateWorldRow name meta now s else s)) name
      = worldCount l name := by
  rw [worldCount, filter_name_map l name _ (fun s => updateIf_name name meta now rid s)]
  rw [List.length_map]
  rfl

/-- After any create-or-update call, looking the name up again finds a row
whose id is exactly the returned world id. -/
theorem create_find_self (name : String) (meta : MapMetadata) (freshId : String) (now : Nat)
    (worlds : List WorldRow) :
    ∃ r2, ((create_world_entry name meta freshId now worlds).2).find? (fun s => s.name == name)
        = some r2 ∧ r2.id = (create_world_entry name meta freshId now worlds).1 := by
  cases h : worlds.find? (fun s => s.name == name) with
  | none =>
    simp only [create_world_entry, h]
    rw [List.find?_append, h]
    simp [newWorldRow]
  | some r =>
    simp only [create_world_entry, h]
    rw [find?_name_map worlds name _ (fun s => updateIf_name name meta now r.id s), h]
    refine ⟨_, rfl, ?_⟩
    simp [updateWorldRow]

/-- C4: world identity resolution is create-or-update keyed by name — with
no row of that name a fresh row (fresh id, active = true) is inserted and
the fresh id returned; with an existing row its description, bounds,
dimensions, scale and modification timestamp are overwritten in place while
every row's id, name and active flag survive and the existing id is
returned; and calling it twice (with identical or changed metadata) returns
the first call's world id again, adds no row, and leaves the number of rows
of that name unchanged. -/
theorem C4_create_or_update_by_name (name : String) (meta : MapMetadata) (freshId : String)
    (now : Nat) (worlds : List WorldRow) :
    (worlds.find? (fun s => s.name == name) = none →
      create_world_entry name meta freshId now worlds
        = (freshId, worlds ++ [newWorldRow name meta freshId now])
      ∧ (newWorldRow name meta freshId now).id = freshId
      ∧ (newWorldRow name meta freshId now).name = name
      ∧ (newWorldRow name meta freshId now).is_active = true)
    ∧ (∀ r, worlds.find? (fun s => s.name == name) = some r →
        (create_world_entry name meta freshId now worlds).1 = r.id
        ∧ ((create_world_entry name meta freshId now worlds).2).map
              (fun s => (s.id, s.name, s.is_active))
            = worlds.map (fun s => (s.id, s.name, s.is_active))
        ∧ ∀ s ∈ (create_world_entry name meta freshId now worlds).2, s.id = r.id →
            s.description = ("Imported world map: ") ++ name
            ∧ s.bounds = meta.bounds ∧ s.width_pixels = meta.width_pixels
            ∧ s.height_pixels = meta.height_pixels
            ∧ s.meters_per_pixel = meta.meters_per_pixel
            ∧ s.updated_at = now)
    ∧ (∀ (meta2 : MapMetadata) (freshId2 : String) (now2 : Nat),
        (create_world_entry name meta2 freshId2 now2
            (create_world_entry name meta freshId now worlds).2).1
          = (create_world_entry name meta freshId now worlds).1
        ∧ ((create_world_entry name meta2 freshId2 now2
              (create_world_entry name meta freshId now worlds).2).2).length
            = ((create_world_entry name meta freshId now worlds).2).length
        ∧ worldCount ((create_world_entry name meta2 freshId2 now2
              (create_world_entry name meta freshId now worlds).2).2) name
            = worldCount ((create_world_entry name meta freshId now worlds).2) name) := by
  refine ⟨?_, ?_, ?_⟩
  · intro h
    exact ⟨by simp only [create_world_entry, h], rfl, rfl, rfl⟩
  · intro r hr
    refine ⟨by simp only [create_world_entry, hr], ?_, ?_⟩
    · simp only [create_world_entry, hr]
      rw [List.map_map]
      apply List.map_congr_left
      intro s _
      by_cases h : s.id = r.id <;> simp [h, updateWorldRow]
    · intro s hs hid
      simp only [create_world_entry, hr] at hs
      obtain ⟨t, ht, rfl⟩ := List.mem_map.mp hs
      by_cases h : t.id == r.id
      · simp [h, updateWorldRow]
      · rw [if_neg (by simpa using h)] at hid ⊢
        exact absurd (by simpa using hid) (by simpa using h)
  · intro meta2 freshId2 now2
    obtain ⟨r2, hf2, hid⟩ := create_find_self name meta freshId now worlds
    have hsec : create_world_entry name meta2 freshId2 now2
          (create_world_entry name meta freshId now worlds).2
        = (r2.id, ((create_world_entry name meta freshId now worlds).2).map
            (fun s => if s.id == r2.id then updateWorldRow name meta2 now2 s else s)) := by
      generalize hL : (create_world_entry name meta freshId now worlds).2 = L at hf2
      simp only [create_world_entry, hf2]
    rw [hsec]
    exact ⟨hid, List.length_map _ _, worldCount_map_updateIf _ name meta2 now2 r2.id⟩

/-- C4 witness: creating world w in an empty table inserts the fresh row
with active = true and returns the fresh id, and re-running with changed
metadata returns the same id with the same number of rows. -/
theorem C4_witness :
    create_world_entry ("w") m0 ("id-1") 5 []
      = (("id-1"), [] ++ [newWorldRow ("w") m0 ("id-1") 5])
    ∧ (newWorldRow ("w") m0 ("id-1") 5).is_active = true
    ∧ (create_world_entry ("w") m0 ("id-2") 6 (create_world_entry ("w") m0 ("id-1") 5 []).2).1
        = (create_world_entry ("w") m0 ("id-1") 5 []).1
    ∧ ((create_world_entry ("w") m0 ("id-2") 6 (create_world_entry ("w") m0 ("id-1") 5 []).2).2).length
        = ((create_world_entry ("w") m0 ("id-1") 5 []).2).length := by
  have h := C4_create_or_update_by_name ("w") m0 ("id-1") 5 []
  have h1 := h.1 rfl
  have h3 := h.2.2 m0 ("id-2") 6
  exact ⟨h1.1, h1.2.2.2, h3.1, h3.2.1⟩

/-- C6 counterexample: with searched directories iterated in the order
A, B (Python iterates the candidate set in an arbitrary, hash-dependent
order), where A holds only w_map.svg and B holds w_states.svg, the search
returns A's w_map.svg even though w_states.svg exists in a searched
directory — the directory loop is outermost, so the states candidate is
not globally preferred. -/
theorem C6_counterexample :
    find_world_svg ("w") [("A"), ("B")] c6ex = some (("A"), ("w_map.svg"))
    ∧ c6ex ("B") (("w") ++ ("_states.svg")) = true
    ∧ (("w") ++ ("_states.svg")) ≠ ("w_map.svg") :=
  ⟨rfl, rfl, by decide⟩

/-- C6 (amended): the drawing resource is located by scanning the searched
directories in their (arbitrary) set-iteration order and, within each
directory, trying {world}_states.svg, {world}_map.svg, {world}.svg in that
order; the search fails (MissingDrawing) exactly when no candidate exists
in any searched directory; a returned hit is an existing candidate from a
searched directory; and whenever {world}_states.svg exists in the directory
the hit comes from, the hit is {world}_states.svg — the preference for the
states drawing holds within a single directory, not across directories. -/
theorem C6_amended_directory_major_search (world : String) (dirs : List String)
    (ex : String → String → Bool) :
    (find_world_svg world dirs ex = none
      ↔ ∀ d ∈ dirs, ∀ n ∈ preferredNames world, ex d n = false)
    ∧ (∀ d n, find_world_svg world dirs ex = some (d, n) →
        d ∈ dirs ∧ n ∈ preferredNames world ∧ ex d n = true
        ∧ (ex d (world ++ ("_states.svg")) = true → n = world ++ ("_states.svg"))) := by
  induction dirs with
  | nil =>
    refine ⟨?_, ?_⟩
    · simp [find_world_svg]
    · intro d n h
      cases h
  | cons d0 rest ih =>
    cases hf : (preferredNames world).find? (fun n => ex d0 n) with
    | some n0 =>
      have hres : find_world_svg world (d0 :: rest) ex = some (d0, n0) := by
        rw [find_world_svg, hf]
      refine ⟨?_, ?_⟩
      · rw [hres]
        constructor
        · intro h
          cases h
        · intro hall
          have hmem := List.mem_of_find?_eq_some hf
          have := hall d0 (List.mem_cons_self d0 rest) n0 hmem
          rw [List.find?_some hf] at this
          cases this
      · intro d n h
        rw [hres] at h
        have hinj := Option.some.inj h
        have hd : d = d0 := (congrArg Prod.fst hinj).symm
        have hn : n = n0 := (congrArg Prod.snd hinj).symm
        subst hd
        subst hn
        refine ⟨List.mem_cons_self d rest, List.mem_of_find?_eq_some hf,
          List.find?_some hf, ?_⟩
        intro hst
        have hsf : (preferredNames world).find? (fun n => ex d n)
            = some (world ++ ("_states.svg")) := by
          rw [preferredNames]
          exact List.find?_cons_of_pos _ hst
        rw [hsf] at hf
        exact (Option.some.inj hf).symm
    | none =>
      have hres : find_world_svg world (d0 :: rest) ex = find_world_svg world rest ex := by
        rw [find_world_svg, hf]
      have hall0 : ∀ n ∈ preferredNames world, ex d0 n = false := by
        intro n hn
        have := List.find?_eq_none.mp hf n hn
        simpa using this
      refine ⟨?_, ?_⟩
      · rw [hres]
        constructor
        · intro h
          intro d hd n hn
          rcases List.mem_cons.mp hd with hd0 | hdr
          · subst hd0
            exact hall0 n hn
          · exact (ih.1.mp h) d hdr n hn
        · intro hall
          exact ih.1.mpr (fun d hd n hn => hall d (List.mem_cons_of_mem d0 hd) n hn)
      · intro d n h
        rw [hres] at h
        obtain ⟨hd, hn, hex, hpref⟩ := ih.2 d n h
        exact ⟨List.mem_cons_of_mem d0 hd, hn, hex, hpref⟩

/-- C6 witness: with the single searched directory B holding w_states.svg,
the search returns it, and the per-directory states preference holds at
that hit. -/
theorem C6_witness :
    ("B") ∈ [("B")] ∧ (("w") ++ ("_states.svg")) ∈ preferredNames ("w")
    ∧ c6ex ("B") (("w") ++ ("_states.svg")) = true
    ∧ (c6ex ("B") (("w") ++ ("_states.svg")) = true →
        ("w") ++ ("_states.svg") = ("w") ++ ("_states.svg")) :=
  (C6_amended_directory_major_search ("w") [("B")] c6ex).2 ("B") (("w") ++ ("_states.svg")) rfl

/-- A feature list in which every feature coerces ingests to a success. -/
theorem ingestFeatures_ok (coerce : JVal → Except IngestError (Int × α × JVal)) (w : String)
    (fs : List JVal) :
    ∀ (tbl : List (FeatRow α)) (fresh rows : Nat),
    (∀ f ∈ fs, ∃ o, coerce f = Except.ok o) →
    ∃ tbl2 fresh2 n, ingestFeatures coerce w fs tbl fresh rows = (tbl2, fresh2, Except.ok n) := by
  induction fs with
  | nil =>
    intro tbl fresh rows _
    exact ⟨tbl, fresh, rows, rfl⟩
  | cons f fs ih =>
    intro tbl fresh rows h
    obtain ⟨o, ho⟩ := h f (List.mem_cons_self f fs)
    obtain ⟨lid, pl, g⟩ := o
    obtain ⟨tbl2, fresh2, n, hrec⟩ := ih (upsertFeat tbl w lid fresh pl g) (fresh + 1) (rows + 1)
      (fun x hx => h x (List.mem_cons_of_mem f hx))
    refine ⟨tbl2, fresh2, n, ?_⟩
    simp only [ingestFeatures, ho]
    exact hrec

/-- A kind whose document satisfies `kindOk` ingests to a success. -/
theorem ingestKind_ok (k : Kind) (wid : String) (doc : Bag) (db : DB) (h : kindOk k doc) :
    ∃ db2 n, ingestKind k wid doc db = (db2, Except.ok n) := by
  obtain ⟨fs, hfs, hall⟩ := h
  cases k with
  | cells =>
    obtain ⟨tbl2, fresh2, n, hrec⟩ := ingestFeatures_ok cellCoerce wid fs db.cells db.fresh 0 hall
    exact ⟨{ db with cells := tbl2, fresh := fresh2 }, n,
      by simp only [ingestKind, ingest_cells, hfs, hrec]⟩
  | burgs =>
    obtain ⟨tbl2, fresh2, n, hrec⟩ := ingestFeatures_ok burgCoerce wid fs db.burgs db.fresh 0 hall
    exact ⟨{ db with burgs := tbl2, fresh := fresh2 }, n,
      by simp only [ingestKind, ingest_burgs, hfs, hrec]⟩
  | routes =>
    obtain ⟨tbl2, fresh2, n, hrec⟩ := ingestFeatures_ok routeCoerce wid fs db.routes db.fresh 0 hall
    exact ⟨{ db with routes := tbl2, fresh := fresh2 }, n,
      by simp only [ingestKind, ingest_routes, hfs, hrec]⟩
  | rivers =>
    obtain ⟨tbl2, fresh2, n, hrec⟩ := ingestFeatures_ok riverCoerce wid fs db.rivers db.fresh 0 hall
    exact ⟨{ db with rivers := tbl2, fresh := fresh2 }, n,
      by simp only [ingestKind, ingest_rivers, hfs, hrec]⟩
  | markers =>
    obtain ⟨tbl2, fresh2, n, hrec⟩ := ingestFeatures_ok markerCoerce wid fs db.markers db.fresh 0 hall
    exact ⟨{ db with markers := tbl2, fresh := fresh2 }, n,
      by simp only [ingestKind, ingest_markers, hfs, hrec]⟩

/-- Ingesting one kind leaves every other kind's table untouched. -/
theorem ingestKind_rowCount (k k2 : Kind) (wid : String) (doc : Bag) (db : DB) (hne : k2 ≠ k) :
    rowCount (ingestKind k wid doc db).1 k2 = rowCount db k2 := by
  cases k <;> cases k2 <;> simp_all [ingestKind, rowCount]

/-- When every listed kind is present and its document well formed, the
ingest loop succeeds and records one ingest event per kind, in list
order. -/
theorem runIngests_ok (wid : String) (files : Kind → Option Bag) (ks : List Kind) :
    ∀ (db : DB) (acc : List Event) (total : Nat),
    (∀ k ∈ ks, (files k).isSome = true) →
    (∀ k ∈ ks, ∀ doc, files k = some doc → kindOk k doc) →
    ∃ db2 n, runIngests wid files ks db acc total
        = (acc ++ ks.map Event.ingest, db2, Except.ok n) := by
  induction ks with
  | nil =>
    intro db acc total _ _
    exact ⟨db, total, by simp [runIngests]⟩
  | cons k ks ih =>
    intro db acc total hsome hok
    obtain ⟨doc, hdoc⟩ := Option.isSome_iff_exists.mp (hsome k (List.mem_cons_self k ks))
    obtain ⟨db2, n, hing⟩ := ingestKind_ok k wid doc db (hok k (List.mem_cons_self k ks) doc hdoc)
    obtain ⟨db3, n3, hrec⟩ := ih db2 (acc ++ [Event.ingest k]) (total + n)
      (fun x hx => hsome x (List.mem_cons_of_mem k hx))
      (fun x hx => hok x (List.mem_cons_of_mem k hx))
    refine ⟨db3, n3, ?_⟩
    simp only [runIngests, hdoc, hing]
    rw [hrec]
    simp

/-- The ingest loop never touches the table of a kind outside its list,
whether it succeeds or aborts on a failure. -/
theorem runIngests_rowCount (wid : String) (files : Kind → Option Bag) (ks : List Kind) :
    ∀ (db : DB) (acc : List Event) (total : Nat) (k2 : Kind), k2 ∉ ks →
    rowCount (runIngests wid files ks db acc total).2.1 k2 = rowCount db k2 := by
  induction ks with
  | nil =>
    intro db acc total k2 _
    simp [runIngests]
  | cons k ks ih =>
    intro db acc total k2 hk2
    have hne : k2 ≠ k := fun h => hk2 (h ▸ List.mem_cons_self k ks)
    have hnotin : k2 ∉ ks := fun h => hk2 (List.mem_cons_of_mem k h)
    cases hdoc : files k with
    | none =>
      simp only [runIngests, hdoc]
      exact ih db acc total k2 hnotin
    | some doc =>
      simp only [runIngests, hdoc]
      cases hres : (ingestKind k wid doc db).2 with
      | error e =>
        simp only [hres]
        exact ingestKind_rowCount k k2 wid doc db hne
      | ok n =>
        simp only [hres]
        rw [ih (ingestKind k wid doc db).1 (acc ++ [Event.ingest k]) (total + n) k2 hnotin]
        exact ingestKind_rowCount k k2 wid doc db hne

/-- C8: an import with zero discovered files is a no-op success, not an
error; and with any subset of the five kind files present (in an
environment where metadata reconciliation, the artifact write and every
present file's ingestion succeed) the import succeeds, with the absent
kinds contributing no rows to their tables. -/
theorem C8_noop_and_any_subset (world : String) (files : Kind → Option Bag)
    (dirs : List String) (ex : String → String → Bool)
    (svgDims : String × String → Option (Nat × Nat)) (freshWorldId : String) (now : Nat)
    (db : DB) (m : MapMetadata) :
    ((∀ k, files k = none) →
      importWorld world files dirs ex svgDims true freshWorldId now db = ([], db, Except.ok 0))
    ∧ (build_map_metadata world ((kindOrder.filterMap files).map Option.some) dirs ex svgDims
          = Except.ok m →
       (∀ k doc, files k = some doc → kindOk k doc) →
       ∃ trace db2 n, importWorld world files dirs ex svgDims true freshWorldId now db
            = (trace, db2, Except.ok n)
          ∧ ∀ k, files k = none → rowCount db2 k = rowCount db k) := by
  constructor
  · intro h
    have hp : presentKinds files = [] := by
      simp [presentKinds, h]
    simp only [importWorld, hp]
  · intro hmeta hok
    cases hp : presentKinds files with
    | nil =>
      refine ⟨[], db, 0, ?_, fun k _ => rfl⟩
      simp only [importWorld, hp]
    | cons k0 krest =>
      have hsome : ∀ k ∈ (k0 :: krest), (files k).isSome = true := by
        intro k hk
        have hk2 : k ∈ presentKinds files := by
          rw [hp]
          exact hk
        rw [presentKinds] at hk2
        exact (List.mem_filter.mp hk2).2
      obtain ⟨db2, n, hrun⟩ := runIngests_ok
        (create_world_entry world m freshWorldId now db.worlds).1 files (k0 :: krest)
        ({ db with worlds := (create_world_entry world m freshWorldId now db.worlds).2 })
        [Event.metadata, Event.resolveWorld] 0 hsome
        (fun k _ doc hd => hok k doc hd)
      refine ⟨[Event.metadata, Event.resolveWorld] ++ (k0 :: krest).map Event.ingest, db2, n,
        ?_, ?_⟩
      · simp only [importWorld, hp, hmeta, if_true]
        exact hrun
      · intro k hk
        have hnm : k ∉ (k0 :: krest) := by
          intro hmem
          have := hsome k hmem
          rw [hk] at this
          cases this
        have hrc := runIngests_rowCount
          (create_world_entry world m freshWorldId now db.worlds).1 files (k0 :: krest)
          ({ db with worlds := (create_world_entry world m freshWorldId now db.worlds).2 })
          [Event.metadata, Event.resolveWorld] 0 k hnm
        rw [hrun] at hrc
        rw [hrc]
        cases k <;> rfl

/-- C9: under the environment hypotheses making a run succeed, the event
trace of an import is exactly metadata reconciliation, then world identity
resolution, then one ingest per present kind in the fixed order given by
`kindOrder` (cells, burgs, routes, rivers, markers): no ingestor runs
before the metadata and world stages, and no later kind runs before an
earlier present kind. -/
theorem C9_fixed_kind_order (world : String) (files : Kind → Option Bag) (dirs : List String)
    (ex : String → String → Bool) (svgDims : String × String → Option (Nat × Nat))
    (freshWorldId : String) (now : Nat) (db : DB) (m : MapMetadata)
    (hne : presentKinds files ≠ [])
    (hmeta : build_map_metadata world ((kindOrder.filterMap files).map Option.some) dirs ex svgDims
        = Except.ok m)
    (hok : ∀ k doc, files k = some doc → kindOk k doc) :
    (importWorld world files dirs ex svgDims true freshWorldId now db).1
      = [Event.metadata, Event.resolveWorld] ++ (presentKinds files).map Event.ingest := by
  cases hp : presentKinds files with
  | nil => exact absurd hp hne
  | cons k0 krest =>
    have hsome : ∀ k ∈ (k0 :: krest), (files k).isSome = true := by
      intro k hk
      have hk2 : k ∈ presentKinds files := by
        rw [hp]
        exact hk
      rw [presentKinds] at hk2
      exact (List.mem_filter.mp hk2).2
    obtain ⟨db2, n, hrun⟩ := runIngests_ok
      (create_world_entry world m freshWorldId now db.worlds).1 files (k0 :: krest)
      ({ db with worlds := (create_world_entry world m freshWorldId now db.worlds).2 })
      [Event.metadata, Event.resolveWorld] 0 hsome
      (fun k _ doc hd => hok k doc hd)
    simp only [importWorld, hp, hmeta, if_true]
    rw [hrun]

/-- c89hok: every document discovered by `c89files` is well formed. -/
theorem c89hok : ∀ (k : Kind) (doc : Bag), c89files k = some doc → kindOk k doc := by
  intro k doc h
  cases k <;> simp only [c89files] at h <;> cases h
  refine ⟨[JVal.obj [(("properties"), JVal.obj [(("id"), JVal.num 1)])]], rfl, ?_⟩
  intro f hf
  have hf1 : f = JVal.obj [(("properties"), JVal.obj [(("id"), JVal.num 1)])] := by
    simpa using hf
  subst hf1
  exact ⟨_, rfl⟩

/-- C8 witness: a zero-file import of world w is a no-op success, and a
cells-only import succeeds with no rows added to the four absent kinds'
tables. -/
theorem C8_witness :
    importWorld ("w") (fun _ => none) [("D")] c89ex c89dims true ("id0") 0 emptyDB
      = ([], emptyDB, Except.ok 0)
    ∧ ∃ trace db2 n, importWorld ("w") c89files [("D")] c89ex c89dims true ("id0") 0 emptyDB
        = (trace, db2, Except.ok n)
      ∧ ∀ k, c89files k = none → rowCount db2 k = rowCount emptyDB k :=
  ⟨(C8_noop_and_any_subset ("w") (fun _ => none) [("D")] c89ex c89dims ("id0") 0 emptyDB m0).1
      (fun _ => rfl),
   (C8_noop_and_any_subset ("w") c89files [("D")] c89ex c89dims ("id0") 0 emptyDB m0).2
      rfl c89hok⟩

/-- C9 witness: the cells-only import of world w produces the trace
metadata, world resolution, ingest cells. -/
theorem C9_witness :
    (importWorld ("w") c89files [("D")] c89ex c89dims true ("id0") 0 emptyDB).1
      = [Event.metadata, Event.resolveWorld] ++ (presentKinds c89files).map Event.ingest :=
  C9_fixed_kind_order ("w") c89files [("D")] c89ex c89dims ("id0") 0 emptyDB m0
    (by decide) rfl c89hok
